import Mathlib

/-!
Verification development for the ecommerce-chat-platform API server
(services/api, the Express + Prisma + socket.io backend).

The embedding models the relational store as explicit lists of records and
each route handler as a pure function from a request and a database state to
a response and a new state.  Prisma-generated ids are modelled by a fresh
counter threaded through the state; JWT signing is modelled by recording the
signing secret inside the token; bcrypt hashing is modelled by an injective
tagging function.  HTTP responses are a status code plus payload.
-/

namespace EcomChat

/-- Result of a route handler: a successful JSON payload, or an error
response carrying the HTTP status code and the error message the server
sends. -/
inductive ApiResult (α : Type) where
  | ok : α → ApiResult α
  | error : Nat → String → ApiResult α
  deriving Repr, DecidableEq

/-- User row: id, unique email, display name, password hash, admin flag
(prisma model User in the schema). -/
structure User where
  id : Nat
  email : String
  name : String
  password : String
  isAdmin : Bool
  deriving Repr, DecidableEq

/-- Product row: id, name, optional description, positive price,
non-negative stock. -/
structure Product where
  id : Nat
  name : String
  description : Option String
  price : Nat
  stock : Nat
  deriving Repr, DecidableEq

/-- Cart row: one-to-one with a user. -/
structure Cart where
  id : Nat
  userId : Nat
  deriving Repr, DecidableEq

/-- CartItem row: a (cart, product) line with a quantity. -/
structure CartItem where
  id : Nat
  cartId : Nat
  productId : Nat
  quantity : Nat
  deriving Repr, DecidableEq

/-- OrderItem row: the product, quantity and the price snapshotted at order
creation time (server.ts stores item.product.price into the order item). -/
structure OrderItem where
  productId : Nat
  quantity : Nat
  price : Nat
  deriving Repr, DecidableEq

/-- Order row: owner, total, status and the snapshotted items. -/
structure Order where
  id : Nat
  userId : Nat
  total : Nat
  status : String
  items : List OrderItem
  deriving Repr, DecidableEq

/-- Message row: authoring user and content. -/
structure Message where
  id : Nat
  userId : Nat
  content : String
  deriving Repr, DecidableEq

/-- The whole relational store, plus a counter supplying fresh ids (Prisma
generates ids on insert). -/
structure DB where
  users : List User
  products : List Product
  carts : List Cart
  cartItems : List CartItem
  orders : List Order
  messages : List Message
  nextId : Nat
  deriving Repr, DecidableEq

/-- The server secret used for jwt.sign / jwt.verify
(process.env.JWT_SECRET with fallback devsecret). -/
def JWT_SECRET : String := "devsecret"

/-- The claims jwt.sign embeds: user id and email. -/
structure TokenPayload where
  id : Nat
  email : String
  deriving Repr, DecidableEq

/-- A bearer token: its payload, the secret it was signed with, and an
optional expiry claim.  The server signs without an expiry, but clients may
present tokens carrying one, which jwt.verify checks. -/
structure SignedToken where
  payload : TokenPayload
  secret : String
  exp : Option Nat
  deriving Repr, DecidableEq

/-- Model of jwt.sign with the server secret and no expiresIn option. -/
def sign (p : TokenPayload) : SignedToken :=
  ⟨p, JWT_SECRET, none⟩

/-- Model of jwt.verify at time now: the token must be signed with the
server secret and, when it carries an expiry claim, must not be expired. -/
def verify (t : SignedToken) (now : Nat) : Option TokenPayload :=
  if t.secret == JWT_SECRET &&
     (match t.exp with | none => true | some e => decide (now < e)) then
    some t.payload
  else
    none

/-- Model of the authenticateToken middleware (server.ts:42).  A missing
token answers 401 before the route body; jwt.verify failure answers 403;
otherwise the wrapped handler runs on the decoded payload. -/
def authenticateToken {α : Type} (auth : Option SignedToken) (now : Nat)
    (handler : TokenPayload → α) : ApiResult α :=
  match auth with
  | none => .error 401 "Access token required"
  | some t =>
    match verify t now with
    | none => .error 403 "Invalid token"
    | some p => .ok (handler p)

/-- Model of bcrypt.hash: an abstract one-way tagging of the password. -/
def hashPassword (pw : String) : String :=
  "bcrypt10$" ++ pw

/-- The registerSchema zod validation: well-formed email, non-empty name,
password of length at least 6. -/
def validRegister (email name password : String) : Bool :=
  email.data.contains '@' && decide (1 ≤ name.data.length) && decide (6 ≤ password.data.length)

/-- Public user fields returned by the auth routes. -/
structure PublicUser where
  id : Nat
  email : String
  name : String
  deriving Repr, DecidableEq

/-- Payload of a successful registration: public fields plus the token. -/
structure AuthResponse where
  user : PublicUser
  token : SignedToken
  deriving Repr, DecidableEq

/-- Model of POST /auth/register (server.ts:76).  Zod failure answers 400.
prisma.user.create on an existing email throws a unique-constraint error,
which the generic catch turns into a 500 response; there is no dedicated
409 Conflict branch.  On a fresh email the user row is inserted and the
route answers the public fields plus a token signed with the server
secret. -/
def register (st : DB) (email name password : String) :
    ApiResult AuthResponse × DB :=
  if !(validRegister email name password) then
    (.error 400 "Invalid input", st)
  else if st.users.any (fun u => u.email == email) then
    (.error 500 "Failed to register", st)
  else
    let u : User := ⟨st.nextId, email, name, hashPassword password, false⟩
    (.ok ⟨⟨u.id, u.email, u.name⟩, sign ⟨u.id, u.email⟩⟩,
     { st with users := st.users ++ [u], nextId := st.nextId + 1 })

/-- The cart lines belonging to a cart. -/
def cartLines (st : DB) (cartId : Nat) : List CartItem :=
  st.cartItems.filter (fun it => it.cartId == cartId)

/-- The current price of a product, as read through the Prisma product
join; 0 only for a dangling product reference, which foreign keys rule
out. -/
def priceOf (st : DB) (pid : Nat) : Nat :=
  match st.products.find? (fun p => p.id == pid) with
  | some p => p.price
  | none => 0

/-- The user's cart row, prisma.cart.findUnique on the unique userId. -/
def findCart (st : DB) (uid : Nat) : Option Cart :=
  st.carts.find? (fun c => c.userId == uid)

/-- Model of POST /cart (server.ts:148).  Zod rejects a non-positive
quantity with 400.  The cart is created lazily when the user has none;
an existing line for the product is merged by summing quantities, else a
new line is inserted.  Inserting a line for a product id that does not
exist violates the CartItem→Product foreign key, and the generic catch
answers 500 (with the lazily created cart already committed). -/
def addToCart (st : DB) (uid pid qty : Nat) : ApiResult String × DB :=
  if qty == 0 then (.error 400 "Invalid input", st)
  else
    let (cart, st1) :=
      match findCart st uid with
      | some c => (c, st)
      | none =>
        let c : Cart := ⟨st.nextId, uid⟩
        (c, { st with carts := st.carts ++ [c], nextId := st.nextId + 1 })
    match st1.cartItems.find? (fun it => it.cartId == cart.id && it.productId == pid) with
    | some it =>
      (.ok "Added to cart",
       { st1 with cartItems :=
           st1.cartItems.map (fun j =>
             if j.id == it.id then { j with quantity := it.quantity + qty } else j) })
    | none =>
      if st1.products.any (fun p => p.id == pid) then
        (.ok "Added to cart",
         { st1 with cartItems := st1.cartItems ++ [⟨st1.nextId, cart.id, pid, qty⟩],
                    nextId := st1.nextId + 1 })
      else
        (.error 500 "Failed to add to cart", st1)

/-- Model of DELETE /cart/:productId (server.ts:177).  A user with no cart
row gets 404; otherwise prisma.cartItem.deleteMany removes every line of
that cart for the product, succeeding also when none match. -/
def removeFromCart (st : DB) (uid pid : Nat) : ApiResult String × DB :=
  match findCart st uid with
  | none => (.error 404 "Cart not found", st)
  | some c =>
    (.ok "Removed from cart",
     { st with cartItems :=
         st.cartItems.filter (fun it => !(it.cartId == c.id && it.productId == pid)) })

/-- The total computed by POST /orders: the source's
cart.items.reduce with accumulator sum + item.product.price * item.quantity
starting from 0, i.e. a left fold. -/
def orderTotal (st : DB) (items : List CartItem) : Nat :=
  items.foldl (fun sum it => sum + priceOf st it.productId * it.quantity) 0

/-- First half of POST /orders (server.ts:191-214): load the cart with its
items, answer none when the cart is missing or empty, otherwise compute the
total, snapshot each line's product price into an order item, and insert
the order row.  Returns the order, the cart id, and the state as it stands
after prisma.order.create has committed but before the cart is cleared. -/
def createOrderInsert (st : DB) (uid : Nat) : Option (Order × Nat × DB) :=
  match findCart st uid with
  | none => none
  | some c =>
    let items := cartLines st c.id
    if items.isEmpty then none
    else
      let order : Order :=
        ⟨st.nextId, uid, orderTotal st items, "PENDING",
         items.map (fun it => ⟨it.productId, it.quantity, priceOf st it.productId⟩)⟩
      some (order, c.id, { st with orders := st.orders ++ [order], nextId := st.nextId + 1 })

/-- Second half of POST /orders (server.ts:216): prisma.cartItem.deleteMany
on the cart id. -/
def clearCart (st : DB) (cartId : Nat) : DB :=
  { st with cartItems := st.cartItems.filter (fun it => !(it.cartId == cartId)) }

/-- Model of POST /orders (server.ts:191).  The source issues the order
insert and the cart clear as two separate Prisma calls with no surrounding
prisma.$transaction, so the intermediate state of createOrderInsert is
durable: an execution that fails between the two calls stops there. -/
def createOrder (st : DB) (uid : Nat) : ApiResult Order × DB :=
  match createOrderInsert st uid with
  | none => (.error 400 "Cart is empty", st)
  | some (order, cartId, st1) => (.ok order, clearCart st1 cartId)

/-- The state left behind when the execution of POST /orders fails (or the
process crashes) after prisma.order.create committed and before
prisma.cartItem.deleteMany ran; reachable because the two calls are not
wrapped in a transaction. -/
def createOrderCrashMid (st : DB) (uid : Nat) : DB :=
  match createOrderInsert st uid with
  | none => st
  | some (_, _, st1) => st1

/-- The productSchema zod validation used by PUT /admin/products/:id:
non-empty name, positive price, integer stock (non-negativity is inherent
to Nat). -/
def validProduct (name : String) (price : Nat) : Bool :=
  decide (1 ≤ name.length) && decide (0 < price)

/-- Model of PUT /admin/products/:id (server.ts:320).  Zod failure answers
400; prisma.product.update on a missing id throws and the catch answers
500; otherwise the product row is replaced with the new fields. -/
def updateProduct (st : DB) (pid : Nat) (name : String) (descr : Option String)
    (price stock : Nat) : ApiResult Product × DB :=
  if !(validProduct name price) then (.error 400 "Invalid input", st)
  else
    match st.products.find? (fun p => p.id == pid) with
    | none => (.error 500 "Failed to update product", st)
    | some p =>
      let p' : Product := { p with name := name, description := descr,
                                   price := price, stock := stock }
      (.ok p',
       { st with products := st.products.map (fun q => if q.id == pid then p' else q) })

/-- Model of POST /admin/make-admin/:userId (server.ts:369).  The route is
guarded by authenticateToken only — requireAdmin is not in its middleware
chain — so any payload that verification accepts reaches the body, which
sets the target user's admin flag.  A missing target makes
prisma.user.update throw, answered 500. -/
def makeAdmin (st : DB) (auth : Option SignedToken) (now : Nat) (targetId : Nat) :
    ApiResult User × DB :=
  match authenticateToken auth now (fun _ =>
    match st.users.find? (fun u => u.id == targetId) with
    | none => (ApiResult.error 500 "Failed to make user admin", st)
    | some u =>
      (ApiResult.ok { u with isAdmin := true },
       { st with users := st.users.map (fun v =>
           if v.id == targetId then { v with isAdmin := true } else v) })) with
  | .ok r => r
  | .error c m => (.error c m, st)

/-- Model of POST /messages (server.ts:248).  The route has no
authentication middleware: the body's userId and content are taken as-is
and the message row is inserted attributed to that userId.  A userId that
does not reference a user violates the Message→User foreign key and the
catch answers 500. -/
def postMessage (st : DB) (userId : Nat) (content : String) :
    ApiResult Message × DB :=
  if st.users.any (fun u => u.id == userId) then
    let msg : Message := ⟨st.nextId, userId, content⟩
    (.ok msg, { st with messages := st.messages ++ [msg], nextId := st.nextId + 1 })
  else
    (.error 500 "Failed to create message", st)

/-- A connected socket.io session: its socket id and the rooms it has
joined via the join event (each carrying a user id, server.ts:399). -/
structure Session where
  socketId : Nat
  rooms : List Nat
  deriving Repr, DecidableEq

/-- Model of the join event handler: socket.join(userId). -/
def joinRoom (s : Session) (uid : Nat) : Session :=
  { s with rooms := s.rooms ++ [uid] }

/-- The payload of the sendMessage socket event. -/
structure MessageData where
  userId : Nat
  content : String
  recipientId : Option Nat
  deriving Repr, DecidableEq

/-- io.to(room).emit: one delivery of the payload to each connected session
that joined the room. -/
def emitToRoom (conns : List Session) (room : Nat) (payload : Message) :
    List (Nat × Message) :=
  (conns.filter (fun s => s.rooms.contains room)).map (fun s => (s.socketId, payload))

/-- io.emit: one delivery of the payload to every connected session. -/
def emitAll (conns : List Session) (payload : Message) : List (Nat × Message) :=
  conns.map (fun s => (s.socketId, payload))

/-- Model of the sendMessage socket handler (server.ts:403).  No token is
checked: the event's userId is trusted as the author.  The message is
persisted first; only if persistence succeeds is the payload emitted —
to the recipient's room when recipientId is given, else to every
connection.  On a persistence failure the handler only logs, emitting
nothing.  Returns the new state and the list of (socketId, payload)
deliveries. -/
def sendMessage (st : DB) (conns : List Session) (d : MessageData) :
    DB × List (Nat × Message) :=
  if st.users.any (fun u => u.id == d.userId) then
    let msg : Message := ⟨st.nextId, d.userId, d.content⟩
    let st1 := { st with messages := st.messages ++ [msg], nextId := st.nextId + 1 }
    match d.recipientId with
    | some r => (st1, emitToRoom conns r msg)
    | none => (st1, emitAll conns msg)
  else
    (st, [])

/-- The cart lines of a given cart holding a given product: the predicate
of prisma.cartItem.findFirst in POST /cart. -/
def matchLine (cid pid : Nat) (it : CartItem) : Bool :=
  it.cartId == cid && it.productId == pid

/-- The quantity of a product in a user's cart: the summed quantity over
the matching lines (zero when the user has no cart or no such line). -/
def userCartQty (st : DB) (uid pid : Nat) : Nat :=
  match findCart st uid with
  | none => 0
  | some c => ((st.cartItems.filter (matchLine c.id pid)).map CartItem.quantity).sum

/-- The cart total as the code computes it: the POST /orders reduce over
the user's current cart lines (zero when the user has no cart). -/
def cartTotal (st : DB) (uid : Nat) : Nat :=
  match findCart st uid with
  | none => 0
  | some c => orderTotal st (cartLines st c.id)

/-- One cart operation of the add/remove API. -/
inductive CartOp where
  | add : Nat → Nat → Nat → CartOp
  | remove : Nat → Nat → CartOp
  deriving Repr, DecidableEq

/-- Apply one cart operation, keeping the resulting store. -/
def applyOp (st : DB) : CartOp → DB
  | .add uid pid qty => (addToCart st uid pid qty).2
  | .remove uid pid => (removeFromCart st uid pid).2

/-- Apply a sequence of add/remove-cart calls. -/
def applyOps (ops : List CartOp) (st : DB) : DB :=
  ops.foldl applyOp st

/-- Store invariants maintained by Prisma: generated ids are below the
fresh-id counter and cart-item primary keys are distinct. -/
def Wf (st : DB) : Prop :=
  (∀ it ∈ st.cartItems, it.id < st.nextId ∧ it.cartId < st.nextId) ∧
  (∀ c ∈ st.carts, c.id < st.nextId) ∧
  (st.cartItems.map CartItem.id).Nodup

/-- The number of deliveries in a delivery list addressed to a given
socket. -/
def deliveredCount (ds : List (Nat × Message)) (sid : Nat) : Nat :=
  (ds.filter (fun pr => pr.1 == sid)).length

/-- A one-user store: Alice owns cart 50 holding two Widgets at price 10. -/
def stC1 : DB :=
  ⟨[⟨1, "a@b.com", "Alice", "h", false⟩],
   [⟨100, "Widget", none, 10, 5⟩],
   [⟨50, 1⟩], [⟨60, 50, 100, 2⟩], [], [], 200⟩

/-- A store for the C2 witness: Alice's cart 50 holds two Widgets at price
10 and one Gadget at price 5. -/
def stC2 : DB :=
  ⟨[⟨1, "a@b.com", "Alice", "h", false⟩],
   [⟨100, "Widget", none, 10, 5⟩, ⟨101, "Gadget", none, 5, 3⟩],
   [⟨50, 1⟩], [⟨60, 50, 100, 2⟩, ⟨61, 50, 101, 1⟩], [], [], 200⟩

/-- A store already holding a user registered as a@b.com. -/
def stC3 : DB :=
  ⟨[⟨1, "a@b.com", "Alice", "h", false⟩], [], [], [], [], [], 10⟩

/-- A store with one user (id 7) and no cart row. -/
def stC5 : DB :=
  ⟨[⟨7, "u@x.com", "U", "h", false⟩], [], [], [], [], [], 10⟩

/-- A store for the C6 witness: Alice's cart 50 already holds two Widgets;
the request adds three more. -/
def stC6 : DB :=
  ⟨[⟨1, "a@b.com", "Alice", "h", false⟩],
   [⟨100, "Widget", none, 10, 5⟩],
   [⟨50, 1⟩], [⟨60, 50, 100, 2⟩], [], [], 200⟩

/-- A store and two connected sessions for the C8 witness. -/
def stC8 : DB :=
  ⟨[⟨1, "a@b.com", "Alice", "h", false⟩, ⟨2, "c@d.com", "Carol", "h", false⟩],
   [], [], [], [], [], 300⟩

/-- A store holding only Eve, a non-admin user. -/
def stC9 : DB :=
  ⟨[⟨3, "eve@x.com", "Eve", "h", false⟩], [], [], [], [], [], 10⟩

/-! ### Helper lemmas -/

/-- A left fold accumulating sums equals the starting value plus the sum of
the mapped list. -/
theorem foldl_add_eq_sum {α : Type} (f : α → Nat) (l : List α) (n : Nat) :
    l.foldl (fun s a => s + f a) n = n + (l.map f).sum := by
  induction l generalizing n with
  | nil => simp
  | cons a l ih => simp [List.foldl, ih, Nat.add_assoc]

/-- The order total computed by the route's reduce equals the sum over the
lines of product price times quantity. -/
theorem orderTotal_eq_sum (st : DB) (items : List CartItem) :
    orderTotal st items =
      (items.map (fun it => priceOf st it.productId * it.quantity)).sum := by
  simpa using foldl_add_eq_sum (fun it => priceOf st it.productId * it.quantity) items 0

/-- Filtering by a predicate after keeping only its complement yields the
empty list. -/
theorem filter_not_self {α : Type} (l : List α) (p : α → Bool) :
    (l.filter (fun x => !(p x))).filter p = [] := by
  induction l with
  | nil => rfl
  | cons a l ih => by_cases h : p a <;> simp [List.filter_cons, h, ih]

/-! ### C4 -/

/-- C4: a later product update through PUT /admin/products/:id never
changes any existing order: the orders table, hence every order's
snapshotted item prices and its total, is untouched. -/
theorem C4_updateProduct_preserves_orders (st : DB) (pid : Nat) (name : String)
    (descr : Option String) (price stock : Nat) :
    (updateProduct st pid name descr price stock).2.orders = st.orders ∧
    (updateProduct st pid name descr price stock).2.orders.map
        (fun o => (o.total, o.items.map OrderItem.price)) =
      st.orders.map (fun o => (o.total, o.items.map OrderItem.price)) := by
  have h : (updateProduct st pid name descr price stock).2.orders = st.orders := by
    unfold updateProduct
    split
    · rfl
    · split <;> rfl
  exact ⟨h, by rw [h]⟩

/-! ### C1 -/


/-- C1: POST /orders is not atomic.  The order insert and the cart clear
are separate Prisma calls with no transaction, so the execution that fails
between them (modelled by createOrderCrashMid) leaves a state where the
order for Alice is persisted while her cart still holds its line — exactly
the outcome the claim says no execution can produce. -/
theorem C1_createOrder_not_atomic :
    (∃ o, o ∈ (createOrderCrashMid stC1 1).orders ∧ o.userId = 1) ∧
    cartLines (createOrderCrashMid stC1 1) 50 ≠ [] := by
  constructor
  · exact ⟨⟨200, 1, 20, "PENDING", [⟨100, 2, 10⟩]⟩, by decide, rfl⟩
  · decide

/-! ### C3 -/


/-- C3 counterexample: registering with an email that already exists does
not fail with a 409 Conflict — the unique-constraint violation falls into
the generic catch and the route answers 500 "Failed to register". -/
theorem C3_register_conflict_counterexample :
    (register stC3 "a@b.com" "Bob" "hunter22").1 =
      ApiResult.error 500 "Failed to register" ∧
    (register stC3 "a@b.com" "Bob" "hunter22").1 ≠
      ApiResult.error 409 "Conflict" := by
  constructor <;> decide

/-- C3 amended: with well-formed input, registering an email that already
belongs to a user fails with the generic 500 error and leaves the store
unchanged (so no user is created); registering a fresh email succeeds,
inserts exactly one user row carrying the salted hash, and returns the
public fields plus a token signed with the server secret, which verifies
at every time. -/
theorem C3_register_amended (st : DB) (email name password : String)
    (hv : validRegister email name password = true) :
    ((∃ u, u ∈ st.users ∧ u.email = email) →
      register st email name password = (.error 500 "Failed to register", st)) ∧
    ((∀ u, u ∈ st.users → u.email ≠ email) →
      register st email name password =
        (.ok ⟨⟨st.nextId, email, name⟩, sign ⟨st.nextId, email⟩⟩,
         { st with
             users := st.users ++ [⟨st.nextId, email, name, hashPassword password, false⟩],
             nextId := st.nextId + 1 }) ∧
      ∀ now, verify (sign ⟨st.nextId, email⟩) now = some ⟨st.nextId, email⟩) := by
  constructor
  · rintro ⟨u, hu, he⟩
    have ha : st.users.any (fun u => u.email == email) = true :=
      List.any_eq_true.mpr ⟨u, hu, by simp [he]⟩
    simp [register, hv, ha]
  · intro h
    have ha : st.users.any (fun u => u.email == email) = false := by
      rw [List.any_eq_false]
      intro u hu
      simpa using h u hu
    refine ⟨by simp [register, hv, ha], fun now => ?_⟩
    simp [verify, sign]

/-- C3 witness: the amended theorem applied at the concrete store stC3,
duplicate-email branch. -/
theorem C3_register_amended_witness :
    register stC3 "a@b.com" "Bob" "hunter22" =
      (.error 500 "Failed to register", stC3) :=
  (C3_register_amended stC3 "a@b.com" "Bob" "hunter22" (by decide)).1
    ⟨⟨1, "a@b.com", "Alice", "h", false⟩, by decide, rfl⟩

/-! ### C5 -/


/-- C5 counterexample: for a user with no cart row, DELETE /cart/:productId
does not succeed as a no-op — it fails with 404 Cart not found. -/
theorem C5_removeFromCart_counterexample :
    removeFromCart stC5 7 100 = (.error 404 "Cart not found", stC5) ∧
    (removeFromCart stC5 7 100).1 ≠ .ok "Removed from cart" := by
  constructor <;> decide

/-- C5 amended: when the user has no cart, removeFromCart fails with 404
and leaves the store unchanged; when the user has a cart, it succeeds,
removing exactly the lines of that cart matching the product — a no-op on
the lines when none match. -/
theorem C5_removeFromCart_amended (st : DB) (uid pid : Nat) :
    (findCart st uid = none →
      removeFromCart st uid pid = (.error 404 "Cart not found", st)) ∧
    (∀ c, findCart st uid = some c →
      removeFromCart st uid pid =
        (.ok "Removed from cart",
         { st with cartItems :=
             st.cartItems.filter (fun it => !(it.cartId == c.id && it.productId == pid)) })) := by
  constructor
  · intro h
    simp [removeFromCart, h]
  · intro c h
    simp [removeFromCart, h]

/-- C5 witness: the amended theorem applied at the concrete store stC5,
no-cart branch. -/
theorem C5_removeFromCart_amended_witness :
    removeFromCart stC5 7 100 = (.error 404 "Cart not found", stC5) :=
  (C5_removeFromCart_amended stC5 7 100).1 (by decide)

/-! ### C7 -/

/-- C7 counterexample: a token signed with a wrong secret is rejected with
403 Forbidden, not with a 401 unauthorized error as the claim states. -/
theorem C7_auth_status_counterexample :
    authenticateToken (α := Nat) (some ⟨⟨1, "a@b.com"⟩, "forged", none⟩) 0
        (fun _ => 0) = ApiResult.error 403 "Invalid token" ∧
    authenticateToken (α := Nat) (some ⟨⟨1, "a@b.com"⟩, "forged", none⟩) 0
        (fun _ => 0) ≠ ApiResult.error 401 "Access token required" := by
  constructor <;> decide

/-- C7 amended: the middleware maps each failure mode to its exact status
— a missing bearer token always answers 401 Access token required, and a
token that jwt.verify rejects (bad signature or expired) always answers
403 Invalid token — and in every such case the response is never a handler
result and does not depend on the handler at all: the protected handler is
never reached. -/
theorem C7_auth_amended {α : Type} (auth : Option SignedToken) (now : Nat)
    (handler handler' : TokenPayload → α) :
    (auth = none →
      authenticateToken auth now handler = .error 401 "Access token required") ∧
    (∀ t, auth = some t → verify t now = none →
      authenticateToken auth now handler = .error 403 "Invalid token") ∧
    ((auth = none ∨ ∃ t, auth = some t ∧ verify t now = none) →
      (∀ x, authenticateToken auth now handler ≠ .ok x) ∧
      authenticateToken auth now handler = authenticateToken auth now handler') := by
  refine ⟨?_, ?_, ?_⟩
  · rintro rfl
    rfl
  · rintro t rfl hv
    simp [authenticateToken, hv]
  · rintro (rfl | ⟨t, rfl, hv⟩)
    · exact ⟨fun x => by simp [authenticateToken], rfl⟩
    · exact ⟨fun x => by simp [authenticateToken, hv], by simp [authenticateToken, hv]⟩

/-- C7 witness: the amended theorem applied at all three concrete failure
modes — no authorization header answers 401; a token signed with a wrong
secret answers 403; a token signed with the server secret but already
expired answers 403. -/
theorem C7_auth_amended_witness :
    authenticateToken (α := Nat) none 0 (fun _ => 0) =
        .error 401 "Access token required" ∧
    authenticateToken (α := Nat) (some ⟨⟨1, "a@b.com"⟩, "forged", none⟩) 0
        (fun _ => 0) = .error 403 "Invalid token" ∧
    authenticateToken (α := Nat) (some ⟨⟨1, "a@b.com"⟩, JWT_SECRET, some 5⟩) 10
        (fun _ => 0) = .error 403 "Invalid token" :=
  ⟨(C7_auth_amended none 0 (fun _ => 0) (fun _ => 1)).1 rfl,
   (C7_auth_amended (some ⟨⟨1, "a@b.com"⟩, "forged", none⟩) 0
       (fun _ => 0) (fun _ => 1)).2.1 ⟨⟨1, "a@b.com"⟩, "forged", none⟩ rfl (by decide),
   (C7_auth_amended (some ⟨⟨1, "a@b.com"⟩, JWT_SECRET, some 5⟩) 10
       (fun _ => 0) (fun _ => 1)).2.1 ⟨⟨1, "a@b.com"⟩, JWT_SECRET, some 5⟩ rfl (by decide)⟩

/-! ### C2 -/

/-- C2: POST /orders on a non-empty cart succeeds, answers an order whose
total is the sum over the pre-order cart lines of product price times
quantity, appends exactly that order to the orders table, and leaves the
cart with zero lines; on a missing or empty cart it answers 400 Cart is
empty and changes nothing, so no order is created. -/
theorem C2_createOrder_correct (st : DB) (uid : Nat) :
    (∀ c, findCart st uid = some c → cartLines st c.id ≠ [] →
      ∃ o st', createOrder st uid = (.ok o, st') ∧
        o.total = ((cartLines st c.id).map
          (fun it => priceOf st it.productId * it.quantity)).sum ∧
        cartLines st' c.id = [] ∧
        st'.orders = st.orders ++ [o]) ∧
    (findCart st uid = none →
      createOrder st uid = (.error 400 "Cart is empty", st)) ∧
    (∀ c, findCart st uid = some c → cartLines st c.id = [] →
      createOrder st uid = (.error 400 "Cart is empty", st)) := by
  refine ⟨?_, ?_, ?_⟩
  · intro c hc hne
    have he : (cartLines st c.id).isEmpty = false := by
      cases h : (cartLines st c.id).isEmpty
      · rfl
      · exact absurd (List.isEmpty_iff.mp h) hne
    refine ⟨⟨st.nextId, uid, orderTotal st (cartLines st c.id), "PENDING",
        (cartLines st c.id).map
          (fun it => ⟨it.productId, it.quantity, priceOf st it.productId⟩)⟩,
      clearCart
        { st with
            orders := st.orders ++
              [⟨st.nextId, uid, orderTotal st (cartLines st c.id), "PENDING",
                (cartLines st c.id).map
                  (fun it => ⟨it.productId, it.quantity, priceOf st it.productId⟩)⟩],
            nextId := st.nextId + 1 } c.id,
      ?_, orderTotal_eq_sum st (cartLines st c.id), ?_, ?_⟩
    · simp [createOrder, createOrderInsert, hc, he]
    · unfold cartLines clearCart
      exact filter_not_self _ _
    · rfl
  · intro h
    simp [createOrder, createOrderInsert, h]
  · intro c hc he
    simp [createOrder, createOrderInsert, hc, he]


/-- C2 witness: the theorem applied at the concrete store stC2, non-empty
branch; the resulting order's total is 25, matching the worked example of
the specification. -/
theorem C2_createOrder_correct_witness :
    ∃ o st', createOrder stC2 1 = (.ok o, st') ∧
      o.total = ((cartLines stC2 50).map
        (fun it => priceOf stC2 it.productId * it.quantity)).sum ∧
      cartLines st' 50 = [] ∧
      st'.orders = stC2.orders ++ [o] :=
  (C2_createOrder_correct stC2 1).1 ⟨50, 1⟩ (by decide) (by decide)

/-! ### C9 -/

/-- C9: any token that jwt.verify accepts reaches the make-admin body,
whether or not the caller is an admin — requireAdmin is not on this route
— and when the target user exists the route answers 200 with the updated
row and sets that user's admin flag to true in the store. -/
theorem C9_makeAdmin_no_admin_check (st : DB) (t : SignedToken)
    (p : TokenPayload) (now targetId : Nat) (u : User)
    (hv : verify t now = some p)
    (hf : st.users.find? (fun v => v.id == targetId) = some u) :
    makeAdmin st (some t) now targetId =
      (.ok { u with isAdmin := true },
       { st with users := st.users.map (fun v =>
           if v.id == targetId then { v with isAdmin := true } else v) }) ∧
    ∀ v, v ∈ (makeAdmin st (some t) now targetId).2.users →
      v.id = targetId → v.isAdmin = true := by
  have heq : makeAdmin st (some t) now targetId =
      (.ok { u with isAdmin := true },
       { st with users := st.users.map (fun v =>
           if v.id == targetId then { v with isAdmin := true } else v) }) := by
    simp [makeAdmin, authenticateToken, hv, hf]
  refine ⟨heq, ?_⟩
  intro v hv' hid
  rw [heq] at hv'
  simp only at hv'
  rcases List.mem_map.mp hv' with ⟨w, _, hw⟩
  by_cases h : (w.id == targetId) = true
  · rw [if_pos h] at hw
    rw [← hw]
  · rw [if_neg h] at hw
    subst hw
    exact absurd (beq_iff_eq.mpr hid) h


/-- C9 witness: the theorem applied with non-admin Eve's own freshly signed
token and Eve herself as the target — a non-admin grants admin to
themselves. -/
theorem C9_makeAdmin_no_admin_check_witness :
    makeAdmin stC9 (some (sign ⟨3, "eve@x.com"⟩)) 0 3 =
      (.ok ⟨3, "eve@x.com", "Eve", "h", true⟩,
       { stC9 with users := [⟨3, "eve@x.com", "Eve", "h", true⟩] }) := by
  have h := (C9_makeAdmin_no_admin_check stC9 (sign ⟨3, "eve@x.com"⟩)
    ⟨3, "eve@x.com"⟩ 0 3 ⟨3, "eve@x.com", "Eve", "h", false⟩
    (by decide) (by decide)).1
  rw [h]
  rfl

/-! ### C10 -/

/-- C10: posting a chat message checks no token.  The HTTP route and the
socket handler take only the caller-supplied userId and content — neither
model function even receives a token — and for any existing user id they
persist a message attributed to that userId: any caller can author
messages as any user. -/
theorem C10_postMessage_no_auth (st : DB) (uid : Nat) (content : String)
    (conns : List Session) (recip : Option Nat)
    (h : st.users.any (fun u => u.id == uid) = true) :
    postMessage st uid content =
      (.ok ⟨st.nextId, uid, content⟩,
       { st with messages := st.messages ++ [⟨st.nextId, uid, content⟩],
                 nextId := st.nextId + 1 }) ∧
    (sendMessage st conns ⟨uid, content, recip⟩).1.messages =
      st.messages ++ [⟨st.nextId, uid, content⟩] := by
  constructor
  · simp [postMessage, h]
  · cases recip <;> simp [sendMessage, h]

/-- C10 witness: the theorem applied at a concrete store — a caller with
no token posts a message attributed to user 7. -/
theorem C10_postMessage_no_auth_witness :
    postMessage stC5 7 "hello" =
      (.ok ⟨10, 7, "hello"⟩,
       { stC5 with messages := stC5.messages ++ [⟨10, 7, "hello"⟩],
                   nextId := 11 }) :=
  (C10_postMessage_no_auth stC5 7 "hello" [] none (by decide)).1

/-! ### C8 -/


/-- Filtering a mapped list has the same length as filtering the composed
predicate. -/
theorem length_filter_map {α β : Type} (f : α → β) (p : β → Bool) (l : List α) :
    ((l.map f).filter p).length = (l.filter (fun x => p (f x))).length := by
  induction l with
  | nil => rfl
  | cons a l ih => by_cases h : p (f a) <;> simp [List.filter_cons, h, ih]

/-- In a connection list with distinct socket ids, filtering by matching a
member's socket id conjoined with any predicate keeps exactly one element
when the member satisfies the predicate, and none otherwise. -/
theorem length_filter_key (l : List Session) (q : Session → Bool) (s : Session)
    (hnd : (l.map Session.socketId).Nodup) (hs : s ∈ l) :
    (l.filter (fun t => t.socketId == s.socketId && q t)).length =
      if q s then 1 else 0 := by
  induction l with
  | nil => cases hs
  | cons a l ih =>
    rw [List.map_cons, List.nodup_cons] at hnd
    rcases hnd with ⟨hna, hnl⟩
    rcases List.mem_cons.mp hs with rfl | hs'
    · have htail : l.filter (fun t => t.socketId == s.socketId && q t) = [] := by
        rw [List.filter_eq_nil_iff]
        intro t ht
        simp only [Bool.and_eq_true, beq_iff_eq, not_and]
        intro heq _
        exact hna (heq ▸ List.mem_map_of_mem Session.socketId ht)
      by_cases hq : q s <;> simp [List.filter_cons, hq, htail]
    · have hne : (a.socketId == s.socketId) = false := by
        refine beq_eq_false_iff_ne.mpr fun heq => hna ?_
        exact heq ▸ List.mem_map_of_mem Session.socketId hs'
      rw [List.filter_cons]
      simp only [hne, Bool.false_and, if_neg Bool.false_ne_true]
      exact ih hnl hs'

/-- C8: once persistence succeeds, the sendMessage handler appends exactly
the new message to the store, every emitted delivery carries that payload,
and each connected session receives it exactly once when it belongs to the
intended audience — the recipient's session-group for a directed message,
everyone for a broadcast — and zero times otherwise. -/
theorem C8_sendMessage_delivery (st : DB) (conns : List Session) (d : MessageData)
    (hnd : (conns.map Session.socketId).Nodup)
    (hu : st.users.any (fun u => u.id == d.userId) = true) :
    (sendMessage st conns d).1.messages =
      st.messages ++ [⟨st.nextId, d.userId, d.content⟩] ∧
    (∀ pr, pr ∈ (sendMessage st conns d).2 →
      pr.2 = ⟨st.nextId, d.userId, d.content⟩) ∧
    ∀ s, s ∈ conns →
      deliveredCount (sendMessage st conns d).2 s.socketId =
        match d.recipientId with
        | some r => if s.rooms.contains r then 1 else 0
        | none => 1 := by
  obtain ⟨uid, content, recip⟩ := d
  cases recip with
  | none =>
    refine ⟨by simp [sendMessage, hu], ?_, ?_⟩
    · intro pr hpr
      simp only [sendMessage, hu, if_true, emitAll] at hpr
      rcases List.mem_map.mp hpr with ⟨t, _, ht⟩
      rw [← ht]
    · intro s hs
      simp only [sendMessage, hu, if_true, emitAll, deliveredCount]
      rw [length_filter_map]
      have hcongr : conns.filter
            (fun x => (x.socketId, (⟨st.nextId, uid, content⟩ : Message)).1 == s.socketId) =
          conns.filter (fun t => t.socketId == s.socketId && (fun _ => true) t) := by
        apply List.filter_congr
        intro t _
        simp
      rw [hcongr, length_filter_key conns (fun _ => true) s hnd hs]
      rfl
  | some r =>
    refine ⟨by simp [sendMessage, hu], ?_, ?_⟩
    · intro pr hpr
      simp only [sendMessage, hu, if_true, emitToRoom] at hpr
      rcases List.mem_map.mp hpr with ⟨t, _, ht⟩
      rw [← ht]
    · intro s hs
      simp only [sendMessage, hu, if_true, emitToRoom, deliveredCount]
      rw [length_filter_map]
      have hcongr : (conns.filter (fun t => t.rooms.contains r)).filter
            (fun x => (x.socketId, (⟨st.nextId, uid, content⟩ : Message)).1 == s.socketId) =
          conns.filter (fun t => t.socketId == s.socketId && t.rooms.contains r) := by
        rw [List.filter_filter]
      rw [hcongr, length_filter_key conns (fun t => t.rooms.contains r) s hnd hs]


/-- C8 witness: the theorem applied with two connected sessions — the
session that joined room 2 receives the directed message exactly once. -/
theorem C8_sendMessage_delivery_witness :
    deliveredCount (sendMessage stC8 [⟨9, [1]⟩, ⟨10, [2]⟩] ⟨1, "hi", some 2⟩).2 10 = 1 := by
  have h := (C8_sendMessage_delivery stC8 [⟨9, [1]⟩, ⟨10, [2]⟩] ⟨1, "hi", some 2⟩
    (by decide) (by decide)).2.2 ⟨10, [2]⟩ (by simp)
  simpa using h

/-! ### C6 -/


/-- Mapping a function that fixes every element of a list is the
identity. -/
theorem map_eq_self {α : Type} (l : List α) (f : α → α) (h : ∀ x ∈ l, f x = x) :
    l.map f = l := by
  induction l with
  | nil => rfl
  | cons a l ih =>
    rw [List.map_cons, h a (List.mem_cons_self a l),
        ih (fun x hx => h x (List.mem_cons_of_mem a hx))]

/-- Filtering commutes with mapping a function that preserves the
predicate. -/
theorem filter_map_comm {α : Type} (l : List α) (f : α → α) (p : α → Bool)
    (h : ∀ x, p (f x) = p x) : (l.map f).filter p = (l.filter p).map f := by
  induction l with
  | nil => rfl
  | cons a l ih =>
    rw [List.map_cons, List.filter_cons, List.filter_cons, h a]
    by_cases ha : p a
    · rw [if_pos ha, if_pos ha, List.map_cons, ih]
    · rw [if_neg ha, if_neg ha, ih]

/-- Summing the quantities after the merge update of POST /cart: when the
item ids are distinct and the merged item is in the list, the sum grows by
exactly the added quantity. -/
theorem sum_quantity_merge (l : List CartItem) (it : CartItem) (qty : Nat)
    (hnd : (l.map CartItem.id).Nodup) (hit : it ∈ l) :
    ((l.map (fun j => if j.id == it.id then { j with quantity := it.quantity + qty } else j)).map
        CartItem.quantity).sum = (l.map CartItem.quantity).sum + qty := by
  induction l with
  | nil => cases hit
  | cons a l ih =>
    rw [List.map_cons, List.nodup_cons] at hnd
    rcases hnd with ⟨hna, hnl⟩
    by_cases ha : (a.id == it.id) = true
    · have haa : a = it := by
        rcases List.mem_cons.mp hit with rfl | hit'
        · rfl
        · exact absurd (beq_iff_eq.mp ha ▸ List.mem_map_of_mem CartItem.id hit') hna
      have htl : l.map (fun j =>
          if j.id == it.id then { j with quantity := it.quantity + qty } else j) = l := by
        refine map_eq_self l _ fun x hx => ?_
        have hx' : (x.id == it.id) = false := by
          refine beq_eq_false_iff_ne.mpr fun heq => hna ?_
          rw [haa, ← heq]
          exact List.mem_map_of_mem CartItem.id hx
        rw [hx']
        simp
      rw [List.map_cons, if_pos ha, htl, List.map_cons, List.map_cons]
      subst haa
      simp [Nat.add_comm, Nat.add_assoc, Nat.add_left_comm]
    · have hit' : it ∈ l := by
        rcases List.mem_cons.mp hit with heq | hit'
        · subst heq
          exact absurd (beq_self_eq_true it.id) ha
        · exact hit'
      rw [List.map_cons, if_neg ha, List.map_cons, List.map_cons,
          List.sum_cons, List.sum_cons, ih hnl hit', Nat.add_assoc]

/-- The cart total the code computes always equals the sum over the
remaining lines of current product price times quantity. -/
theorem cartTotal_eq_sum (s : DB) (u : Nat) :
    cartTotal s u =
      match findCart s u with
      | none => 0
      | some c => ((cartLines s c.id).map
          (fun it => priceOf s it.productId * it.quantity)).sum := by
  unfold cartTotal
  cases findCart s u
  · rfl
  · simp [orderTotal_eq_sum]

/-- C6: with a positive quantity and an existing product, POST /cart
succeeds; afterwards the user has a cart (created lazily when absent), the
summed quantity of the product's cart lines grows by exactly the request
quantity (merged into an existing line or inserted as a new one), every
other product's lines are untouched, and after any sequence of add/remove
calls the cart total the code computes equals the sum over the remaining
lines of current product price times quantity. -/
theorem C6_addToCart_correct (st : DB) (uid pid qty : Nat) (hq : 0 < qty)
    (hp : st.products.any (fun p => p.id == pid) = true) (hWf : Wf st) :
    (addToCart st uid pid qty).1 = .ok "Added to cart" ∧
    (∃ c, findCart (addToCart st uid pid qty).2 uid = some c) ∧
    userCartQty (addToCart st uid pid qty).2 uid pid = userCartQty st uid pid + qty ∧
    (∀ pid', pid' ≠ pid →
      userCartQty (addToCart st uid pid qty).2 uid pid' = userCartQty st uid pid') ∧
    (∀ ops s u, cartTotal (applyOps ops s) u =
      match findCart (applyOps ops s) u with
      | none => 0
      | some c => ((cartLines (applyOps ops s) c.id).map
          (fun it => priceOf (applyOps ops s) it.productId * it.quantity)).sum) := by
  obtain ⟨hIds, hCarts, hNd⟩ := hWf
  have hq0 : (qty == 0) = false := beq_eq_false_iff_ne.mpr (Nat.pos_iff_ne_zero.mp hq)
  have htot : ∀ ops s u, cartTotal (applyOps ops s) u =
      match findCart (applyOps ops s) u with
      | none => 0
      | some c => ((cartLines (applyOps ops s) c.id).map
          (fun it => priceOf (applyOps ops s) it.productId * it.quantity)).sum :=
    fun ops s u => cartTotal_eq_sum (applyOps ops s) u
  cases hc : findCart st uid with
  | some c =>
    cases hfind : st.cartItems.find? (fun it => it.cartId == c.id && it.productId == pid) with
    | some it =>
      have heq : addToCart st uid pid qty =
          (.ok "Added to cart",
           { st with cartItems := st.cartItems.map (fun j =>
               if j.id == it.id then { j with quantity := it.quantity + qty } else j) }) := by
        simp [addToCart, hq0, hc, hfind]
      have hmem : it ∈ st.cartItems := List.mem_of_find?_eq_some hfind
      have hpred := List.find?_some hfind
      have hpid : it.productId = pid := by
        simp only [Bool.and_eq_true, beq_iff_eq] at hpred
        exact hpred.2
      have hfc' : findCart
          { st with cartItems := st.cartItems.map (fun j =>
              if j.id == it.id then { j with quantity := it.quantity + qty } else j) } uid =
          some c := hc
      rw [heq]
      refine ⟨rfl, ⟨c, hfc'⟩, ?_, ?_, htot⟩
      · have hpres : ∀ x, matchLine c.id pid
            ((fun j => if j.id == it.id then { j with quantity := it.quantity + qty } else j) x) =
            matchLine c.id pid x := by
          intro x
          by_cases hx : (x.id == it.id) = true <;> simp [matchLine, hx]
        simp only [userCartQty, hfc', hc]
        rw [filter_map_comm _ _ _ hpres]
        have hitf : it ∈ st.cartItems.filter (matchLine c.id pid) :=
          List.mem_filter.mpr ⟨hmem, by simpa [matchLine] using hpred⟩
        have hndf : ((st.cartItems.filter (matchLine c.id pid)).map CartItem.id).Nodup :=
          List.Nodup.sublist (List.Sublist.map CartItem.id (List.filter_sublist _)) hNd
        exact sum_quantity_merge _ it qty hndf hitf
      · intro pid' hpid'
        have hpres : ∀ x, matchLine c.id pid'
            ((fun j => if j.id == it.id then { j with quantity := it.quantity + qty } else j) x) =
            matchLine c.id pid' x := by
          intro x
          by_cases hx : (x.id == it.id) = true <;> simp [matchLine, hx]
        simp only [userCartQty, hfc', hc]
        rw [filter_map_comm _ _ _ hpres]
        have hself : ∀ x ∈ st.cartItems.filter (matchLine c.id pid'),
            (fun j => if j.id == it.id then { j with quantity := it.quantity + qty } else j) x
              = x := by
          intro x hx
          rcases List.mem_filter.mp hx with ⟨hxl, hxp⟩
          have hxid : (x.id == it.id) = false := by
            refine beq_eq_false_iff_ne.mpr fun hxe => ?_
            have hxit : x = it := List.inj_on_of_nodup_map hNd hxl hmem hxe
            have : x.productId = pid' := by
              have := (Bool.and_eq_true _ _).mp hxp
              exact beq_iff_eq.mp this.2
            exact hpid' (by rw [← this, hxit, hpid])
          simp [hxid]
        rw [map_eq_self _ _ hself]
    | none =>
      have heq : addToCart st uid pid qty =
          (.ok "Added to cart",
           { st with cartItems := st.cartItems ++ [⟨st.nextId, c.id, pid, qty⟩],
                     nextId := st.nextId + 1 }) := by
        simp [addToCart, hq0, hc, hfind, hp]
      have hfc' : findCart
          { st with cartItems := st.cartItems ++ [⟨st.nextId, c.id, pid, qty⟩],
                    nextId := st.nextId + 1 } uid = some c := hc
      rw [heq]
      refine ⟨rfl, ⟨c, hfc'⟩, ?_, ?_, htot⟩
      · simp only [userCartQty, hfc', hc]
        rw [List.filter_append]
        have hnew : List.filter (matchLine c.id pid) [⟨st.nextId, c.id, pid, qty⟩] =
            [⟨st.nextId, c.id, pid, qty⟩] := by
          simp [matchLine]
        rw [hnew]
        simp
      · intro pid' hpid'
        simp only [userCartQty, hfc', hc]
        rw [List.filter_append]
        have hnew : List.filter (matchLine c.id pid') [⟨st.nextId, c.id, pid, qty⟩] = [] := by
          simp [matchLine]
          exact fun h => absurd h.symm hpid'
        rw [hnew]
        simp
  | none =>
    have hfind : st.cartItems.find?
        (fun it => it.cartId == st.nextId && it.productId == pid) = none := by
      refine List.find?_eq_none.mpr fun x hx => ?_
      simp [beq_eq_false_iff_ne.mpr (Nat.ne_of_lt (hIds x hx).2)]
    have heq : addToCart st uid pid qty =
        (.ok "Added to cart",
         { st with carts := st.carts ++ [⟨st.nextId, uid⟩],
                   cartItems := st.cartItems ++ [⟨st.nextId + 1, st.nextId, pid, qty⟩],
                   nextId := st.nextId + 1 + 1 }) := by
      simp [addToCart, hq0, hc, hfind, hp]
    have hcnone : List.find? (fun k => k.userId == uid) st.carts = none := hc
    have hfc' : findCart
        { st with carts := st.carts ++ [⟨st.nextId, uid⟩],
                  cartItems := st.cartItems ++ [⟨st.nextId + 1, st.nextId, pid, qty⟩],
                  nextId := st.nextId + 1 + 1 } uid = some ⟨st.nextId, uid⟩ := by
      simp [findCart, List.find?_append, hcnone]
    have hfl : ∀ pd, st.cartItems.filter (matchLine st.nextId pd) = [] := by
      intro pd
      refine List.filter_eq_nil_iff.mpr fun x hx => ?_
      simp [matchLine, beq_eq_false_iff_ne.mpr (Nat.ne_of_lt (hIds x hx).2)]
    rw [heq]
    refine ⟨rfl, ⟨⟨st.nextId, uid⟩, hfc'⟩, ?_, ?_, htot⟩
    · simp only [userCartQty, hfc', hc]
      rw [List.filter_append, hfl pid]
      have hnew : List.filter (matchLine st.nextId pid)
          [⟨st.nextId + 1, st.nextId, pid, qty⟩] = [⟨st.nextId + 1, st.nextId, pid, qty⟩] := by
        simp [matchLine]
      rw [hnew]
      simp
    · intro pid' hpid'
      simp only [userCartQty, hfc', hc]
      rw [List.filter_append, hfl pid']
      have hnew : List.filter (matchLine st.nextId pid')
          [⟨st.nextId + 1, st.nextId, pid, qty⟩] = [] := by
        simp [matchLine]
        exact fun h => absurd h.symm hpid'
      rw [hnew]
      simp


/-- C6 witness: the theorem applied at the concrete store stC6 — the add
succeeds and Widget's summed cart quantity rises from 2 to 5. -/
theorem C6_addToCart_correct_witness :
    (addToCart stC6 1 100 3).1 = .ok "Added to cart" ∧
    userCartQty (addToCart stC6 1 100 3).2 1 100 = userCartQty stC6 1 100 + 3 := by
  have h := C6_addToCart_correct stC6 1 100 3 (by decide) (by decide)
    (by constructor
        · decide
        · constructor
          · decide
          · decide)
  exact ⟨h.1, h.2.2.1⟩

end EcomChat
